import Mathlib

/-!
Verification of the HPDP sentiment-analysis project (2425/project/p2).

The repository contains the Spark ML training notebook
`GroupD/notebooks/model_training.ipynb` together with the DataDrillers
readme and requirements.  The notebook builds the feature pipeline
Tokenizer → StopWordsRemover → HashingTF(numFeatures=10000) → IDF →
LogisticRegression, splits the data with `randomSplit([0.8, 0.2], seed=42)`,
and saves the fitted logistic-regression model with
`lr_model.save("lr_model_score_labeling")`.

This file gives a shallow embedding of the data model and of the pipeline
stages as they appear in the notebook, together with models (written from
the design document) of the producer / classifier scripts that the
repository references but does not include under the sources, and proves
or refutes the frozen claims about the system.
-/

namespace HPDP

/-! ### Data model: the review message -/

/-- A review message as it flows through the topic: the design document
gives the fields `review_id, app_id, text, original_score, timestamp`.
`text` is optional because a scraped review body may be null. -/
structure Review where
  review_id : String
  app_id : String
  text : Option String
  original_score : Int
  timestamp : String
deriving DecidableEq, Repr

/-- The five configured applications, from the readme table of target
applications (package names). -/
def configuredApps : List String :=
  ["my.com.tngdigital.ewallet", "my.com.myboost", "com.grabtaxi.passenger",
   "com.setel.mobile", "com.shopeepay.my"]

/-! ### Pipeline stages at schema level

Each Spark ML stage of the notebook is characterised by the `inputCol`
it reads and the output columns it appends, exactly as configured in
`model_training.ipynb`:

* `Tokenizer(inputCol="text", outputCol="words")`
* `StopWordsRemover(inputCol="words", outputCol="filtered_words")`
* `HashingTF(inputCol="filtered_words", outputCol="raw_features", numFeatures=10000)`
* `IDF(inputCol="raw_features", outputCol="features")`
* `LogisticRegression(featuresCol="features", labelCol="label")`, whose
  transform appends `prediction` and `probability`
* `IndexToString(inputCol="prediction", outputCol="predicted_sentiment", labels=sentiment_labels)`
-/

inductive Stage where
  | tokenizer : Stage
  | remover : Stage
  | hashingTF : Stage
  | idf : Stage
  | lrModel : Stage
  | indexToString : Stage
deriving DecidableEq, Repr

/-- The column a stage reads (its configured `inputCol`;
for the logistic-regression model, its `featuresCol`). -/
def Stage.inputCol : Stage → String
  | .tokenizer => "text"
  | .remover => "words"
  | .hashingTF => "filtered_words"
  | .idf => "raw_features"
  | .lrModel => "features"
  | .indexToString => "prediction"

/-- The columns a stage appends to the dataframe. -/
def Stage.outputCols : Stage → List String
  | .tokenizer => ["words"]
  | .remover => ["filtered_words"]
  | .hashingTF => ["raw_features"]
  | .idf => ["features"]
  | .lrModel => ["prediction", "probability"]
  | .indexToString => ["predicted_sentiment"]

/-- Applying a sequence of stages to a dataframe schema: each stage
requires its input column to be present and appends its output columns;
a missing input column is a failure (`none`). -/
def transformSchema (cols : List String) : List Stage → Option (List String)
  | [] => some cols
  | s :: rest =>
      if s.inputCol ∈ cols then transformSchema (cols ++ s.outputCols) rest
      else none

/-- The schema of a raw review message arriving from the topic. -/
def reviewCols : List String :=
  ["review_id", "app_id", "text", "original_score", "timestamp"]

/-- The feature-engineering stages of the notebook, in the order they are
listed in `Pipeline(stages=[tokenizer, remover, hashing_tf, idf, lr])`. -/
def featureStages : List Stage := [.tokenizer, .remover, .hashingTF, .idf]

/-- The full training pipeline of the notebook:
`pipeline = Pipeline(stages=[tokenizer, remover, hashing_tf, idf, lr])`. -/
def pipelineStages : List Stage := [.tokenizer, .remover, .hashingTF, .idf, .lrModel]

/-- The artifact the notebook actually saves: step 9 runs
`lr_model.save(model_output_path)`, i.e. the fitted logistic-regression
model alone, not a fitted pipeline. -/
def savedArtifactStages : List Stage := [.lrModel]

/-! ### Pipeline stages at value level -/

/-- `Tokenizer`: lower-case the text and split it on whitespace
(the Spark tokenizer splits on the whitespace pattern). -/
def tokenize (s : String) : List String :=
  (s.toLower).splitOn " "

/-- `StopWordsRemover`: drop every token that occurs in the stop-word
list (the list itself is a library constant, kept as a parameter). -/
def removeStopWords (stopWords : List String) (ws : List String) : List String :=
  ws.filter (fun w => !(stopWords.contains w))

/-- `HashingTF(numFeatures=10000)`: the fixed dimension of the hashed
term-frequency space, from `model_training.ipynb`. -/
def numFeatures : Nat := 10000

/-- `HashingTF`: map each token through the hash function `h` into one of
`numFeatures` buckets and count term frequencies; the output vector always
has exactly `numFeatures` components.  The concrete hash is a library
constant, kept as a parameter. -/
def hashingTF (h : String → Nat) (ws : List String) : List ℚ :=
  ws.foldl
    (fun v w => v.set (h w % numFeatures) (v.getD (h w % numFeatures) 0 + 1))
    (List.replicate numFeatures 0)

/-- `IDF`: the fitted model rescales each component by the corresponding
inverse-document-frequency weight. -/
def idfTransform (idfWeights : List ℚ) (v : List ℚ) : List ℚ :=
  List.zipWith (· * ·) idfWeights v

/-- The feature encoding of a raw text, as composed by the notebook
pipeline: tokenize, then remove stop-words, then hash into the fixed
feature space, then apply the IDF weighting. -/
def featurize (h : String → Nat) (stopWords : List String)
    (idfWeights : List ℚ) (t : String) : List ℚ :=
  idfTransform idfWeights (hashingTF h (removeStopWords stopWords (tokenize t)))

/-! ### The logistic-regression model -/

/-- A fitted multinomial logistic-regression model: one coefficient row and
one intercept per class (the notebook prints `coefficientMatrix` and
`interceptVector`). -/
structure LRModel where
  coefficientMatrix : List (List ℚ)
  interceptVector : List ℚ
deriving DecidableEq, Repr

/-- Dot product of two vectors (zip-wise product, then sum). -/
def dot (xs ys : List ℚ) : ℚ :=
  (List.zipWith (· * ·) xs ys).sum

/-- The per-class raw margins `coefficientMatrix * features + interceptVector`. -/
def margins (m : LRModel) (v : List ℚ) : List ℚ :=
  List.zipWith (fun row b => dot row v + b) m.coefficientMatrix m.interceptVector

/-- Index of the first maximal element (tail-recursive helper). -/
def argmaxAux : List ℚ → Nat → Nat → ℚ → Nat
  | [], _, best, _ => best
  | x :: xs, i, best, bv =>
      if bv < x then argmaxAux xs (i + 1) i x else argmaxAux xs (i + 1) best bv

/-- Index of the first maximal element of a list (`0` on the empty list);
this is the `prediction` of the model: the class with the largest margin. -/
def argmax : List ℚ → Nat
  | [] => 0
  | x :: xs => argmaxAux xs 1 0 x

/-- The numeric `prediction` column: the class index with maximal margin. -/
def prediction (m : LRModel) (v : List ℚ) : Nat :=
  argmax (margins m v)

/-- The `probability` column: softmax of the margins.  The exponential is
a numeric-library function, kept as a parameter `expFn` (the facts proved
below need only its positivity). -/
def softmax (expFn : ℚ → ℚ) (l : List ℚ) : List ℚ :=
  l.map (fun x => expFn x / (l.map expFn).sum)

/-- The probability vector attached by the model transform. -/
def probability (expFn : ℚ → ℚ) (m : LRModel) (v : List ℚ) : List ℚ :=
  softmax expFn (margins m v)

/-- The sentiment label list of the notebook:
`sentiment_labels = ['negative', 'neutral', 'positive']`,
mapping class indices 0.0, 1.0, 2.0 back to strings. -/
def sentiment_labels : List String := ["negative", "neutral", "positive"]

/-- `IndexToString`: map a prediction index back to its string label. -/
def indexToString (labels : List String) (i : Nat) : String :=
  labels.getD i ""

/-- The string label attached to a classified record. -/
def predictedLabel (m : LRModel) (v : List ℚ) : String :=
  indexToString sentiment_labels (prediction m v)

/-! ### The stream classifier

The consumer script (`spark_kafka_consumer.py`) is referenced by the
readme and the notebook but is not among the sources, so the classifier
below is modelled from the design document and from what the notebook
says about its consumer. -/

/-- Modelled from the spec: the stream classifier (`spark_kafka_consumer.py`,
not among the sources) applies the same fixed preprocessing sequence as the
training pipeline — tokenize, remove stop-words, hash into the fixed
feature space, IDF weighting — before invoking model inference. -/
def classifierStages : List Stage := [.tokenizer, .remover, .hashingTF, .idf, .lrModel]

/-- Modelled from the spec: null text is substituted by the empty text
rather than dropped, so a null/empty review body is mapped to one fixed
default feature vector. -/
def getText (r : Review) : String :=
  r.text.getD ""

/-- The default feature vector substituted for null/empty review text:
the encoding of the empty text. -/
def defaultFeatureVector (h : String → Nat) (stopWords : List String)
    (idfWeights : List ℚ) : List ℚ :=
  featurize h stopWords idfWeights ""

/-- The classification transform on one raw text: the preprocessing
sequence followed by model inference, yielding the predicted label. -/
def classifyText (m : LRModel) (h : String → Nat) (stopWords : List String)
    (idfWeights : List ℚ) (t : String) : String :=
  predictedLabel m (featurize h stopWords idfWeights t)

/-- A classified record: the review together with the attached
`predicted_label` and `probability`. -/
structure ClassifiedRecord where
  review : Review
  predicted_label : String
  prob : List ℚ
deriving DecidableEq, Repr

/-- Modelled from the spec: the classifier turns one consumed review into
exactly one classified record. -/
def classifyRecord (expFn : ℚ → ℚ) (m : LRModel) (h : String → Nat)
    (stopWords : List String) (idfWeights : List ℚ) (r : Review) : ClassifiedRecord :=
  { review := r
    predicted_label := classifyText m h stopWords idfWeights (getText r)
    prob := probability expFn m (featurize h stopWords idfWeights (getText r)) }

/-- Modelled from the spec: a micro-batch is classified record by record;
no record is dropped and no deduplication by `review_id` is performed
(the design document states no dedup logic exists in the source). -/
def classifyBatch (expFn : ℚ → ℚ) (m : LRModel) (h : String → Nat)
    (stopWords : List String) (idfWeights : List ℚ) (batch : List Review) :
    List ClassifiedRecord :=
  batch.map (classifyRecord expFn m h stopWords idfWeights)

/-! ### The topic message format

The producer serializes each review as a JSON object with fields
`review_id, app_id, text, original_score, timestamp` (design document,
external interfaces; the producer script itself is not among the sources,
so serialization is modelled from the spec). -/

/-- A small JSON value type for the topic messages. -/
inductive Json where
  | null : Json
  | str : String → Json
  | num : Int → Json
  | obj : List (String × Json) → Json

/-- Field lookup in a JSON object. -/
def Json.getField (j : Json) (k : String) : Option Json :=
  match j with
  | .obj fields => fields.lookup k
  | _ => none

/-- Modelled from the spec: serialize a review to the topic message
format, a JSON object with fields
`review_id, app_id, text, original_score, timestamp`. -/
def serializeReview (r : Review) : Json :=
  .obj [("review_id", .str r.review_id),
        ("app_id", .str r.app_id),
        ("text", match r.text with | none => .null | some t => .str t),
        ("original_score", .num r.original_score),
        ("timestamp", .str r.timestamp)]

/-- Read a string field. -/
def asStr : Option Json → Option String
  | some (.str s) => some s
  | _ => none

/-- Read a nullable text field. -/
def asNullableStr : Option Json → Option (Option String)
  | some .null => some none
  | some (.str s) => some (some s)
  | _ => none

/-- Read an integer field. -/
def asNum : Option Json → Option Int
  | some (.num n) => some n
  | _ => none

/-- Modelled from the spec: deserialize a topic message back into a
review record; a missing or ill-typed field is a failure. -/
def deserializeReview (j : Json) : Option Review :=
  match asStr (j.getField "review_id"), asStr (j.getField "app_id"),
        asNullableStr (j.getField "text"), asNum (j.getField "original_score"),
        asStr (j.getField "timestamp") with
  | some rid, some aid, some t, some sc, some ts =>
      some { review_id := rid, app_id := aid, text := t,
             original_score := sc, timestamp := ts }
  | _, _, _, _, _ => none

/-! ### The review producer

The producer script (`kafka_live_producer.py`) is not among the sources;
its per-cycle fetch-and-publish loop is modelled from the design
document. -/

/-- Modelled from the spec: one producer timer cycle.  For each configured
app the producer fetches the newest reviews (`fetch a = none` models a
network/fetch failure for app `a`); a failed fetch is skipped — logged and
not escalated — and the cycle publishes the reviews of every app whose
fetch succeeded. -/
def producerCycle (fetch : String → Option (List Review)) : List String → List Review
  | [] => []
  | a :: rest =>
      match fetch a with
      | none => producerCycle fetch rest
      | some rs => rs ++ producerCycle fetch rest

/-! ### The training-data split

The notebook splits with `randomSplit([0.8, 0.2], seed=42)`.  Spark
realises this as a per-row Bernoulli draw from a pseudo-random stream
determined entirely by the seed; the stream is modelled by the standard
48-bit linear congruential generator. -/

/-- The LCG state after `n` steps from the scrambled seed. -/
def lcgState (seed : Nat) : Nat → Nat
  | 0 => (seed ^^^ 25214903917) % (2 ^ 48)
  | n + 1 => (lcgState seed n * 25214903917 + 11) % (2 ^ 48)

/-- Whether the row at position `i` is assigned to the training side:
a Bernoulli(0.8) draw matching the weights `[0.8, 0.2]`. -/
def assignTrain (seed i : Nat) : Bool :=
  lcgState seed (i + 1) % 5 < 4

/-- `randomSplit([0.8, 0.2], seed)`: each row goes to the training or the
test side according to its seeded draw. -/
def randomSplit (seed : Nat) (rows : List Review) : List Review × List Review :=
  ((rows.enum.filter (fun p => assignTrain seed p.1)).map Prod.snd,
   (rows.enum.filter (fun p => !(assignTrain seed p.1))).map Prod.snd)

/-! ### Helper lemmas -/

/-- The helper of `argmax` returns either its running best index or an
index inside the remaining block. -/
theorem argmaxAux_eq_or_bounds (xs : List ℚ) (i best : Nat) (bv : ℚ) :
    argmaxAux xs i best bv = best ∨
      (i ≤ argmaxAux xs i best bv ∧ argmaxAux xs i best bv < i + xs.length) := by
  induction xs generalizing i best bv with
  | nil => exact Or.inl rfl
  | cons x xs ih =>
    simp only [argmaxAux, List.length_cons]
    by_cases hx : bv < x
    · simp only [if_pos hx]
      rcases ih (i + 1) i x with h | ⟨h1, h2⟩
      · right; omega
      · right; omega
    · simp only [if_neg hx]
      rcases ih (i + 1) best bv with h | ⟨h1, h2⟩
      · left; exact h
      · right; omega

/-- On a non-empty list, `argmax` returns a valid index. -/
theorem argmax_lt_length (l : List ℚ) (hl : l ≠ []) : argmax l < l.length := by
  cases l with
  | nil => exact absurd rfl hl
  | cons x xs =>
    simp only [argmax, List.length_cons]
    rcases argmaxAux_eq_or_bounds xs 1 0 x with h | ⟨h1, h2⟩
    · omega
    · omega

/-- `getD` at a valid index is an element of the list. -/
theorem getD_mem_of_lt {α : Type} (l : List α) (i : Nat) (d : α)
    (hi : i < l.length) : l.getD i d ∈ l := by
  induction l generalizing i with
  | nil => simp at hi
  | cons x xs ih =>
    cases i with
    | zero => simp
    | succ n =>
      simp only [List.getD_cons_succ]
      exact List.mem_cons_of_mem x (ih n (by simpa using hi))

/-- The counting fold of `hashingTF` preserves the vector length. -/
theorem hashingTF_foldl_length (h : String → Nat) (ws : List String) (v : List ℚ) :
    (ws.foldl
      (fun v w => v.set (h w % numFeatures) (v.getD (h w % numFeatures) 0 + 1))
      v).length = v.length := by
  induction ws generalizing v with
  | nil => rfl
  | cons w ws ih =>
    simp only [List.foldl_cons]
    rw [ih]
    exact List.length_set ..

/-- The hashed term-frequency vector always has `numFeatures` components. -/
theorem hashingTF_length (h : String → Nat) (ws : List String) :
    (hashingTF h ws).length = numFeatures := by
  unfold hashingTF
  rw [hashingTF_foldl_length]
  exact List.length_replicate ..

/-- With positive `expFn`, the denominator of the softmax is positive on a
non-empty list. -/
theorem sum_map_expFn_pos (expFn : ℚ → ℚ) (hp : ∀ x, 0 < expFn x)
    (l : List ℚ) (hl : l ≠ []) : 0 < (l.map expFn).sum := by
  apply List.sum_pos
  · intro x hx
    rcases List.mem_map.mp hx with ⟨y, _, rfl⟩
    exact hp y
  · simpa using hl

/-- The components of the softmax sum to one. -/
theorem softmax_sum (expFn : ℚ → ℚ) (hp : ∀ x, 0 < expFn x)
    (l : List ℚ) (hl : l ≠ []) : (softmax expFn l).sum = 1 := by
  have hS := sum_map_expFn_pos expFn hp l hl
  simp only [softmax, div_eq_mul_inv, List.sum_map_mul_right]
  exact mul_inv_cancel₀ (ne_of_gt hS)

/-- Each component of the softmax lies in the unit interval. -/
theorem softmax_bounds (expFn : ℚ → ℚ) (hp : ∀ x, 0 < expFn x)
    (l : List ℚ) (hl : l ≠ []) : ∀ p ∈ softmax expFn l, 0 ≤ p ∧ p ≤ 1 := by
  intro p hpm
  rcases List.mem_map.mp hpm with ⟨x, hx, rfl⟩
  have hS := sum_map_expFn_pos expFn hp l hl
  refine ⟨div_nonneg (hp x).le hS.le, ?_⟩
  rw [div_le_one hS]
  refine List.single_le_sum ?_ _ (List.mem_map_of_mem expFn hx)
  intro y hy
  rcases List.mem_map.mp hy with ⟨z, _, rfl⟩
  exact (hp z).le

/-- A review fetched for an app whose fetch succeeded is published by the
cycle, whatever the other apps did. -/
theorem mem_producerCycle (fetch : String → Option (List Review))
    (apps : List String) (good : String) (rs : List Review)
    (hg : good ∈ apps) (hf : fetch good = some rs) :
    ∀ r ∈ rs, r ∈ producerCycle fetch apps := by
  intro r hr
  induction apps with
  | nil => simp at hg
  | cons a rest ih =>
    rcases List.mem_cons.mp hg with hga | hgr
    · subst hga
      simp only [producerCycle, hf]
      exact List.mem_append_left _ hr
    · have hrec := ih hgr
      simp only [producerCycle]
      cases hfa : fetch a with
      | none => exact hrec
      | some qs => exact List.mem_append_right _ hrec

/-- An app whose fetch fails contributes nothing: the cycle behaves as if
that app were removed from the configured list. -/
theorem producerCycle_erase_failed (fetch : String → Option (List Review))
    (apps : List String) (bad : String) (hb : fetch bad = none) :
    producerCycle fetch apps = producerCycle fetch (apps.erase bad) := by
  induction apps with
  | nil => rfl
  | cons a rest ih =>
    by_cases hab : a = bad
    · subst hab
      rw [List.erase_cons_head]
      simp only [producerCycle, hb]
    · rw [List.erase_cons_tail (by simpa using hab)]
      simp only [producerCycle]
      cases hfa : fetch a with
      | none => exact ih
      | some qs => rw [ih]

/-! ### The claims -/

/-- C1, counterexample.  The claim states that the saved model artifact,
applied to raw text, yields a label and probability with no separate
feature-encoding step required of the caller.  This is false on the code:
step 9 of the notebook saves only the fitted logistic-regression model
(`lr_model.save`), whose input contract is the `features` column, so
applying the saved artifact to the raw review schema (which has only
`text`) fails — the raw-text claim does not hold of the saved artifact. -/
theorem savedArtifact_rejects_raw_text :
    transformSchema reviewCols savedArtifactStages = none := by decide

/-- C1, amended.  The saved artifact is the logistic-regression model
alone: it cannot consume raw text, but after the caller applies the
feature-encoding stages (tokenize, stop-word removal, hashing, IDF) it
yields the numeric `prediction` and the `probability`; producing the
string sentiment label further requires the separate `IndexToString`
stage. -/
theorem savedArtifact_contract :
    transformSchema reviewCols savedArtifactStages = none ∧
    transformSchema reviewCols (featureStages ++ savedArtifactStages) =
      some ["review_id", "app_id", "text", "original_score", "timestamp",
            "words", "filtered_words", "raw_features", "features",
            "prediction", "probability"] ∧
    transformSchema reviewCols
        (featureStages ++ savedArtifactStages ++ [Stage.indexToString]) =
      some ["review_id", "app_id", "text", "original_score", "timestamp",
            "words", "filtered_words", "raw_features", "features",
            "prediction", "probability", "predicted_sentiment"] := by
  refine ⟨by decide, by decide, by decide⟩

/-- C2.  The classifier applies exactly the training pipeline's fixed
preprocessing sequence — tokenize, then stop-word removal, then hashed
vectorization, then the IDF weighting transform — before model
inference: its stage list coincides with the notebook pipeline, and on
values the classification transform is inference after exactly that
composition. -/
theorem classifier_preprocessing_matches_training :
    classifierStages = pipelineStages ∧
    featureStages ++ savedArtifactStages = classifierStages ∧
    ∀ (m : LRModel) (h : String → Nat) (sw : List String) (idfW : List ℚ)
      (t : String),
      classifyText m h sw idfW t =
        predictedLabel m
          (idfTransform idfW (hashingTF h (removeStopWords sw (tokenize t)))) :=
  ⟨rfl, rfl, fun _ _ _ _ _ => rfl⟩

/-- C3.  For every text, including the empty string, the
preprocessing-to-feature-vector transform produces a vector of fixed
length 10000, independent of the input. -/
theorem featurize_length_10000 (h : String → Nat) (sw : List String)
    (idfW : List ℚ) (t : String) (hw : idfW.length = numFeatures) :
    (featurize h sw idfW t).length = 10000 := by
  unfold featurize idfTransform
  rw [List.length_zipWith, hashingTF_length, hw]
  rfl

/-- C3 witness: the empty string is mapped to a 10000-component vector. -/
theorem featurize_length_10000_witness :
    (List.replicate 10000 (1 : ℚ)).length = numFeatures ∧
    (featurize (fun _ => 0) [] (List.replicate 10000 (1 : ℚ)) "").length = 10000 :=
  ⟨by rw [List.length_replicate]; rfl,
   featurize_length_10000 (fun _ => 0) [] _ "" (by rw [List.length_replicate]; rfl)⟩

/-- C5.  With a fixed model artifact the classification transform is a
pure function of the text: two applications to the same text yield the
same predicted label. -/
theorem classification_deterministic (m : LRModel) (h : String → Nat)
    (sw : List String) (idfW : List ℚ) (t₁ t₂ : String) (heq : t₁ = t₂) :
    classifyText m h sw idfW t₁ = classifyText m h sw idfW t₂ := by
  rw [heq]

/-- C5 witness: two runs on the same concrete text agree. -/
theorem classification_deterministic_witness :
    "bagus sangat" = "bagus sangat" ∧
    classifyText ⟨[[1], [0], [0]], [0, 0, 0]⟩ (fun _ => 0) [] [1]
        "bagus sangat" =
      classifyText ⟨[[1], [0], [0]], [0, 0, 0]⟩ (fun _ => 0) [] [1]
        "bagus sangat" :=
  ⟨rfl, classification_deterministic _ _ _ _ _ _ rfl⟩

/-- C7.  Serializing a review message to the JSON topic format and
deserializing it yields the original record. -/
theorem review_roundtrip (r : Review) :
    deserializeReview (serializeReview r) = some r := by
  rcases r with ⟨rid, aid, t, sc, ts⟩
  cases t <;> rfl

/-- C9.  Delivering a message with the same `review_id` twice produces
two classified records, one per delivery: the classifier performs no
deduplication. -/
theorem duplicate_delivery_two_records (expFn : ℚ → ℚ) (m : LRModel)
    (h : String → Nat) (sw : List String) (idfW : List ℚ) (r : Review) :
    classifyBatch expFn m h sw idfW [r, r] =
      [classifyRecord expFn m h sw idfW r, classifyRecord expFn m h sw idfW r] ∧
    (classifyBatch expFn m h sw idfW [r, r]).length = 2 :=
  ⟨rfl, rfl⟩

/-- C10.  The 80/20 split with the fixed seed 42 is reproducible — two
runs on the same dataset produce identical training and test sets — and
the two sides partition the input records. -/
theorem randomSplit_seed42_reproducible (rows : List Review) :
    randomSplit 42 rows = randomSplit 42 rows ∧
    ((randomSplit 42 rows).1 ++ (randomSplit 42 rows).2).Perm rows := by
  refine ⟨rfl, ?_⟩
  have h := (List.filter_append_perm (fun p => assignTrain 42 p.1) rows.enum).map Prod.snd
  simpa [randomSplit, List.enum_map_snd] using h

/-- C4.  Every classified record carries a `predicted_label` that is one
of the three sentiment labels negative / neutral / positive, and a
probability vector whose components lie in `[0, 1]` and sum to 1 across
the three classes (for the three-class model of the notebook, and any
positive exponential). -/
theorem classified_record_label_and_probability (expFn : ℚ → ℚ) (m : LRModel)
    (h : String → Nat) (sw : List String) (idfW : List ℚ) (r : Review)
    (hp : ∀ x, 0 < expFn x)
    (hc : m.coefficientMatrix.length = 3)
    (hi : m.interceptVector.length = 3) :
    (classifyRecord expFn m h sw idfW r).predicted_label ∈ sentiment_labels ∧
    (classifyRecord expFn m h sw idfW r).prob.sum = 1 ∧
    ∀ p ∈ (classifyRecord expFn m h sw idfW r).prob, 0 ≤ p ∧ p ≤ 1 := by
  simp only [classifyRecord, classifyText, predictedLabel, probability,
    indexToString, prediction]
  set v := featurize h sw idfW (getText r) with hv
  have hm : (margins m v).length = 3 := by
    simp [margins, List.length_zipWith, hc, hi]
  have hne : margins m v ≠ [] := by
    intro hnil
    rw [hnil] at hm
    simp at hm
  refine ⟨?_, softmax_sum expFn hp _ hne, softmax_bounds expFn hp _ hne⟩
  have hlt : argmax (margins m v) < 3 := hm ▸ argmax_lt_length _ hne
  exact getD_mem_of_lt sentiment_labels _ "" hlt

/-- C4 witness: a concrete three-class model and review. -/
theorem classified_record_label_and_probability_witness :
    (∀ x : ℚ, 0 < (fun _ : ℚ => (1 : ℚ)) x) ∧
    (LRModel.mk [[], [], []] [0, 0, 0]).coefficientMatrix.length = 3 ∧
    (LRModel.mk [[], [], []] [0, 0, 0]).interceptVector.length = 3 ∧
    ((classifyRecord (fun _ => 1) (LRModel.mk [[], [], []] [0, 0, 0])
        (fun _ => 0) [] [] ⟨"r1", "my.com.myboost", some "bagus", 5, "t"⟩
        ).predicted_label ∈ sentiment_labels ∧
      (classifyRecord (fun _ => 1) (LRModel.mk [[], [], []] [0, 0, 0])
        (fun _ => 0) [] [] ⟨"r1", "my.com.myboost", some "bagus", 5, "t"⟩
        ).prob.sum = 1 ∧
      ∀ p ∈ (classifyRecord (fun _ => 1) (LRModel.mk [[], [], []] [0, 0, 0])
        (fun _ => 0) [] [] ⟨"r1", "my.com.myboost", some "bagus", 5, "t"⟩
        ).prob, 0 ≤ p ∧ p ≤ 1) :=
  ⟨fun _ => by norm_num, rfl, rfl,
   classified_record_label_and_probability (fun _ => 1) _ _ _ _ _
     (fun _ => by norm_num) rfl rfl⟩

/-- C6.  A record with null or empty text is not dropped and does not
fail the batch: the batch yields one classified record per input, the
null/empty-text record is among the outputs, and its features are the
fixed default vector (the encoding of the empty text). -/
theorem null_or_empty_text_still_classified (expFn : ℚ → ℚ) (m : LRModel)
    (h : String → Nat) (sw : List String) (idfW : List ℚ)
    (batch : List Review) (r : Review)
    (hr : r ∈ batch) (ht : r.text = none ∨ r.text = some "") :
    (classifyBatch expFn m h sw idfW batch).length = batch.length ∧
    classifyRecord expFn m h sw idfW r ∈ classifyBatch expFn m h sw idfW batch ∧
    featurize h sw idfW (getText r) = defaultFeatureVector h sw idfW := by
  refine ⟨by simp [classifyBatch], List.mem_map_of_mem _ hr, ?_⟩
  have hg : getText r = "" := by
    rcases ht with h1 | h1 <;> simp [getText, h1]
  rw [hg]
  rfl

/-- C6 witness: a one-record batch whose review has null text. -/
theorem null_or_empty_text_still_classified_witness :
    (⟨"r1", "my.com.myboost", none, 3, "t"⟩ : Review) ∈
      [(⟨"r1", "my.com.myboost", none, 3, "t"⟩ : Review)] ∧
    ((⟨"r1", "my.com.myboost", none, 3, "t"⟩ : Review).text = none ∨
      (⟨"r1", "my.com.myboost", none, 3, "t"⟩ : Review).text = some "") ∧
    ((classifyBatch (fun _ => 1) (LRModel.mk [[], [], []] [0, 0, 0]) (fun _ => 0)
        [] [] [⟨"r1", "my.com.myboost", none, 3, "t"⟩]).length =
      ([(⟨"r1", "my.com.myboost", none, 3, "t"⟩ : Review)]).length ∧
      classifyRecord (fun _ => 1) (LRModel.mk [[], [], []] [0, 0, 0]) (fun _ => 0)
          [] [] ⟨"r1", "my.com.myboost", none, 3, "t"⟩ ∈
        classifyBatch (fun _ => 1) (LRModel.mk [[], [], []] [0, 0, 0]) (fun _ => 0)
          [] [] [⟨"r1", "my.com.myboost", none, 3, "t"⟩] ∧
      featurize (fun _ => 0) [] []
          (getText ⟨"r1", "my.com.myboost", none, 3, "t"⟩) =
        defaultFeatureVector (fun _ => 0) [] []) :=
  ⟨by decide, by decide,
   null_or_empty_text_still_classified (fun _ => 1) _ _ _ _ _ _
     (by decide) (by decide)⟩

/-- C8.  A fetch failure for one configured app does not abort the
producer cycle: every review fetched for another configured app whose
fetch succeeded is still published, and the cycle output equals that of
the configured list with the failed app removed. -/
theorem producer_fetch_failure_isolated (fetch : String → Option (List Review))
    (bad good : String) (rs : List Review)
    (hb : fetch bad = none) (hg : good ∈ configuredApps)
    (hf : fetch good = some rs) :
    (∀ r ∈ rs, r ∈ producerCycle fetch configuredApps) ∧
    producerCycle fetch configuredApps =
      producerCycle fetch (configuredApps.erase bad) :=
  ⟨mem_producerCycle fetch configuredApps good rs hg hf,
   producerCycle_erase_failed fetch configuredApps bad hb⟩

/-- C8 witness: the Boost fetch fails, the Grab fetch succeeds with one
review; that review is still published in the same cycle. -/
theorem producer_fetch_failure_isolated_witness :
    (fun a => if a = "my.com.myboost" then none
              else if a = "com.grabtaxi.passenger"
                then some [(⟨"g1", "com.grabtaxi.passenger", some "ok", 4, "t"⟩ : Review)]
                else some ([] : List Review)) "my.com.myboost" = none ∧
    "com.grabtaxi.passenger" ∈ configuredApps ∧
    (fun a => if a = "my.com.myboost" then none
              else if a = "com.grabtaxi.passenger"
                then some [(⟨"g1", "com.grabtaxi.passenger", some "ok", 4, "t"⟩ : Review)]
                else some ([] : List Review)) "com.grabtaxi.passenger" =
      some [(⟨"g1", "com.grabtaxi.passenger", some "ok", 4, "t"⟩ : Review)] ∧
    ((∀ r ∈ [(⟨"g1", "com.grabtaxi.passenger", some "ok", 4, "t"⟩ : Review)],
        r ∈ producerCycle
          (fun a => if a = "my.com.myboost" then none
                    else if a = "com.grabtaxi.passenger"
                      then some [(⟨"g1", "com.grabtaxi.passenger", some "ok", 4, "t"⟩ : Review)]
                      else some ([] : List Review)) configuredApps) ∧
      producerCycle
          (fun a => if a = "my.com.myboost" then none
                    else if a = "com.grabtaxi.passenger"
                      then some [(⟨"g1", "com.grabtaxi.passenger", some "ok", 4, "t"⟩ : Review)]
                      else some ([] : List Review)) configuredApps =
        producerCycle
          (fun a => if a = "my.com.myboost" then none
                    else if a = "com.grabtaxi.passenger"
                      then some [(⟨"g1", "com.grabtaxi.passenger", some "ok", 4, "t"⟩ : Review)]
                      else some ([] : List Review))
          (configuredApps.erase "my.com.myboost")) :=
  ⟨by decide, by decide, by decide,
   producer_fetch_failure_isolated _ "my.com.myboost" "com.grabtaxi.passenger" _
     (by decide) (by decide) (by decide)⟩

end HPDP
